import Mathlib

/-!
# Verification of the signid hand-sign demo pipeline

Shallow embedding of the CV/ML pipeline of the repository:
* `src/utils.py` — overlay rendering and alpha compositing,
* `src/demo.py` — the detection callback, the capture-loop throttle,
* `src/Model/test.py` — the offline dataset split utility.

Images are `uint8` pixel grids; we model a pixel as a triple of `Nat`
channel values (the `uint8` range invariant `< 256` is carried as an
explicit hypothesis where arithmetic wraps, written with `% 256`).
Landmark coordinates are Python floats in the source; we model the
real-number arithmetic with `ℚ` (the claims settled here depend on
which landmark is selected and on list lengths, not on float rounding).
External collaborators (the mediapipe drawing primitives, the scaler and
the classifier) are opaque parameters.
-/

namespace Signid

/-- One RGB (resp. BGR) pixel of a `uint8` image: three channel values. -/
structure Pixel where
  c0 : Nat
  c1 : Nat
  c2 : Nat
deriving DecidableEq, Repr

/-- An image: a list of rows of pixels (numpy array of shape `(h, w, 3)`). -/
abbrev Frame : Type := List (List Pixel)

/-- A pixel is a valid `uint8` pixel when every channel is below 256. -/
def Pixel.valid (p : Pixel) : Prop := p.c0 < 256 ∧ p.c1 < 256 ∧ p.c2 < 256

instance (p : Pixel) : Decidable p.valid := inferInstanceAs (Decidable (_ ∧ _ ∧ _))

/-- A frame is valid when every pixel is a valid `uint8` pixel. -/
def Frame.valid (f : Frame) : Prop := ∀ row ∈ f, ∀ p ∈ row, p.valid

instance (f : Frame) : Decidable f.valid :=
  inferInstanceAs (Decidable (∀ row ∈ f, ∀ p ∈ row, _))

/-- Two frames have the same shape when rows pair off with equal lengths
(numpy shape equality of the first two axes). -/
def Frame.sameShape (a b : Frame) : Prop :=
  List.map List.length a = List.map List.length b

instance (a b : Frame) : Decidable (a.sameShape b) :=
  inferInstanceAs (Decidable (_ = _))

/-- An all-zero (fully transparent) overlay: every pixel is `(0, 0, 0)`. -/
def allTransparent (f : Frame) : Prop := ∀ row ∈ f, ∀ p ∈ row, p = ⟨0, 0, 0⟩

instance (f : Frame) : Decidable (allTransparent f) :=
  inferInstanceAs (Decidable (∀ row ∈ f, ∀ p ∈ row, _))

/-! ## Compositor — `add_transparent_image` (src/utils.py lines 109–116)

```python
def add_transparent_image(background, foreground):
    alpha = np.uint8(np.sum(foreground, axis=-1) > 0)
    foreground = np.dstack((foreground, alpha))
    foreground_colors = foreground[:, :, :3]
    alpha_mask = alpha[:, :, np.newaxis]
    return background * (1 - alpha_mask) + foreground_colors * alpha_mask
```

`np.sum` over the channel axis promotes `uint8` to the platform integer,
so the channel sum is exact; the comparison yields `alpha ∈ {0, 1}`.
The arithmetic of the last line is `uint8` arithmetic, hence the `% 256`. -/

/-- Channel sum of a pixel — `np.sum(foreground, axis=-1)` at one pixel. -/
def pixelSum (p : Pixel) : Nat := p.c0 + p.c1 + p.c2

/-- The derived binary alpha — `np.uint8(np.sum(...) > 0)` at one pixel. -/
def alphaOf (p : Pixel) : Nat := if 0 < pixelSum p then 1 else 0

/-- One output channel: `background * (1 - alpha_mask) + foreground_colors *
alpha_mask` in `uint8` arithmetic. -/
def compositeChannel (a b f : Nat) : Nat := (b * (1 - a) % 256 + f * a % 256) % 256

/-- One output pixel of the compositor. -/
def compositePixel (b f : Pixel) : Pixel :=
  let a := alphaOf f
  ⟨compositeChannel a b.c0 f.c0, compositeChannel a b.c1 f.c1, compositeChannel a b.c2 f.c2⟩

/-- `add_transparent_image(background, foreground)`: per-pixel compositing
over the common shape (numpy broadcasting requires equal shapes). -/
def add_transparent_image (background foreground : Frame) : Frame :=
  List.zipWith (List.zipWith compositePixel) background foreground

/-! ## Feature encoding (src/demo.py lines 29–35)

```python
landmarks = np.array([[landmark.x, landmark.y, landmark.z]
                      for landmark in landmarks_ls[idx]]).flatten()
handedness = handedness_ls[idx][0].index
data = scaler.transform(np.array([[handedness] + landmarks.tolist()]))
```

The vector handed to the scaler is the handedness category code followed by
the row-major flattening of the landmark coordinates.  The source performs
no landmark-count check and raises no error of its own here. -/

/-- One detected 3-D landmark (normalized coordinates, modelled over `ℚ`). -/
structure Landmark where
  x : ℚ
  y : ℚ
  z : ℚ
deriving DecidableEq, Repr

/-- The feature vector built in the callback: handedness category code
prepended to the flattened landmark coordinates. -/
def encode (handedness : Int) (landmarks : List Landmark) : List ℚ :=
  (handedness : ℚ) :: landmarks.flatMap (fun l => [l.x, l.y, l.z])

/-- Modelled from the spec (for comparison with `encode`, which is the
source's encoding): the spec's `encode` contract, which demands exactly 21
landmarks and otherwise fails with `EncodingError` (modelled as `none`). -/
def encodeSpec (handedness : Int) (landmarks : List Landmark) : Option (List ℚ) :=
  if landmarks.length = 21 then some (encode handedness landmarks) else none

/-! ## Overlay renderer — `draw_landmarks_on_image` (src/utils.py lines 66–106)

```python
def draw_landmarks_on_image(rgb_image, detection_result, predictions):
    h, w, _ = rgb_image.shape
    annotated_image = np.zeros(rgb_image.shape, dtype=np.uint8)
    for idx in range(len(hand_landmarks_list)):
        solutions.drawing_utils.draw_landmarks(annotated_image, ...)
        x = max([landmark.x for landmark in hand_landmarks])
        y = min([landmark.y for landmark in hand_landmarks])
        text_x = int(x * w) + MARGIN
        text_y = int(y * h) - MARGIN
        annotated_image = cv2.flip(annotated_image, 1)
        cv2.putText(annotated_image, predictions[idx], (w - text_x, text_y), ...)
        annotated_image = cv2.flip(annotated_image, 1)
    return annotated_image
```

The mediapipe skeleton drawing and the cv2 text rasterizer are external
collaborators, modelled as opaque functions in `DrawPrims`; the canvas
allocation, the anchor arithmetic and the horizontal flips are concrete. -/

/-- Constant from src/utils.py line 8. -/
def MARGIN : Int := 10

/-- Constant from src/utils.py line 9. -/
def FONT_SIZE : Nat := 1

/-- Constant from src/utils.py line 10. -/
def FONT_THICKNESS : Nat := 1

/-- Python `int()` applied to a real value: truncation toward zero. -/
def pyInt (q : ℚ) : Int := if 0 ≤ q then ⌊q⌋ else -⌊-q⌋

/-- Python `max` of the landmark x-coordinates (0 on the empty list, which
cannot occur for a detected hand: `max([])` would raise). -/
def maxX : List Landmark → ℚ
  | [] => 0
  | a :: r => r.foldl (fun m l => max m l.x) a.x

/-- Python `min` of the landmark x-coordinates (used by the sibling helper
`drawLandmarks`, src/utils.py line 38, and by the spec's wording). -/
def minX : List Landmark → ℚ
  | [] => 0
  | a :: r => r.foldl (fun m l => min m l.x) a.x

/-- Python `min` of the landmark y-coordinates. -/
def minY : List Landmark → ℚ
  | [] => 0
  | a :: r => r.foldl (fun m l => min m l.y) a.y

/-- `text_x = int(x * w) + MARGIN` where `x = max(landmark.x)` (utils.py 88/90). -/
def text_x (w : Nat) (hand : List Landmark) : Int := pyInt (maxX hand * w) + MARGIN

/-- `text_y = int(y * h) - MARGIN` where `y = min(landmark.y)` (utils.py 89/91). -/
def text_y (h : Nat) (hand : List Landmark) : Int := pyInt (minY hand * h) - MARGIN

/-- The `org` argument handed to `cv2.putText` (utils.py line 97) — it is
issued on the horizontally flipped canvas. -/
def putTextOrg (w h : Nat) (hand : List Landmark) : Int × Int :=
  ((w : Int) - text_x w hand, text_y h hand)

/-- Column index after `cv2.flip(img, 1)`: column `c` moves to `w - 1 - c`. -/
def flipColIdx (w : Nat) (c : Int) : Int := (w : Int) - 1 - c

/-- Where the label anchor lands in unflipped canvas coordinates: the
`putText` column mapped back through the second flip (utils.py line 104). -/
def labelAnchor (w h : Nat) (hand : List Landmark) : Int × Int :=
  (flipColIdx w (putTextOrg w h hand).1, (putTextOrg w h hand).2)

/-- Modelled from the spec (for comparison with `labelAnchor`, which is the
source's anchor): the claim's anchor — the topmost-leftmost landmark,
minimum x and minimum y scaled to frame dimensions, offset by the margin. -/
def textAnchorSpec (w h : Nat) (hand : List Landmark) : Int × Int :=
  (pyInt (minX hand * w) + MARGIN, pyInt (minY hand * h) - MARGIN)

/-- `cv2.flip(img, 1)`: horizontal mirror, reversing each pixel row. -/
def flipH (f : Frame) : Frame := f.map List.reverse

/-- `np.zeros(rgb_image.shape, dtype=np.uint8)`: an all-zero canvas of the
same shape as the given frame. -/
def zerosLike (f : Frame) : Frame := f.map (fun row => row.map (fun _ => ⟨0, 0, 0⟩))

/-- The external drawing primitives (mediapipe skeleton drawing, cv2 text
rasterizer), opaque to this development. -/
structure DrawPrims where
  drawSkeleton : Frame → List Landmark → Frame
  putText : Frame → String → Int × Int → Frame

/-- The body of the per-hand loop of `draw_landmarks_on_image`: draw the
skeleton, flip, put the label text at `(w - text_x, text_y)`, flip back. -/
def drawHand (prims : DrawPrims) (w h : Nat) (acc : Frame)
    (hand : List Landmark) (pred : String) : Frame :=
  flipH (prims.putText (flipH (prims.drawSkeleton acc hand)) pred (putTextOrg w h hand))

/-- `draw_landmarks_on_image`: allocate an all-zero canvas and run the
per-hand loop.  Hands and predictions are parallel arrays in the caller
(`print_result` builds one prediction per hand), modelled by the zip. -/
def draw_landmarks_on_image (prims : DrawPrims) (rgb_image : Frame)
    (hands : List (List Landmark)) (predictions : List String) : Frame :=
  let h := rgb_image.length
  let w := (rgb_image.headD []).length
  (hands.zip predictions).foldl (fun acc hp => drawHand prims w h acc hp.1 hp.2)
    (zerosLike rgb_image)

/-! ## The detection callback and the shared overlay state (src/demo.py 17–39)

```python
predictions = []
drawn_frame = np.array([])

def print_result(result, output_image, timestamp_ms):
    try:
        ...
        predictions = []
        for idx in range(len(landmarks_ls)):
            ...
            prediction = classifier.predict(data)
            predictions.append(prediction[0])
        drawn_frame = draw_landmarks_on_image(output_image.numpy_view(), result, predictions)
    except Exception as e:
        print(e)
```

`predictions` and `drawn_frame` are two module-level globals written from
the detector's callback context and read from the capture loop (demo.py
lines 74–75 read `drawn_frame`).  We model the shared state as `SState`,
the scaler/classifier composition as an opaque `classify` oracle, and the
whole rendering call as an opaque `render` oracle.

Two views of the same callback body are used:
* `callbackSteps` — the sequence of individual global writes the body
  performs, for interleaving with a concurrent reader (claim C1);
* `print_result` — the sequential input/output semantics including the
  surrounding `try/except`, where `classify` may raise (claim C3). -/

/-- The shared mutable state: the two module-level globals of src/demo.py. -/
structure SState where
  predictions : List String
  drawn_frame : Frame
deriving DecidableEq, Repr

/-- The individual shared-state writes performed by one callback run, in
program order: clear `predictions`, append one label per observation, then
assign `drawn_frame`.  `classify i` is the scaler+classifier label for the
`i`-th observation; `render` is the `draw_landmarks_on_image` call, a
function of the accumulated predictions. -/
def callbackSteps (classify : Nat → String) (render : List String → Frame)
    (obsCount : Nat) : List (SState → SState) :=
  (fun s => { s with predictions := [] }) ::
    ((List.range obsCount).map
      (fun i s => { s with predictions := s.predictions ++ [classify i] })) ++
    [fun s => { s with drawn_frame := render s.predictions }]

/-- The states a concurrent reader can observe while a sequence of writes
runs: the state before any write and the state after each write. -/
def observed : List (SState → SState) → SState → List SState
  | [], s => [s]
  | g :: gs, s => s :: observed gs (g s)

/-- The state after all writes have run. -/
def runSteps (steps : List (SState → SState)) (s : SState) : SState :=
  steps.foldl (fun t g => g t) s

/-- The classification loop of the callback body with a fallible classifier:
returns the appended labels so far and whether the loop completed without an
exception (`classify = none` models a raised `InferenceError`). -/
def classifyLoop {α : Type} (classify : α → Option String) :
    List α → List String → List String × Bool
  | [], acc => (acc, true)
  | o :: rest, acc =>
    match classify o with
    | some l => classifyLoop classify rest (acc ++ [l])
    | none => (acc, false)

/-- Sequential semantics of `print_result`: the `try` body appends labels
one by one; on the first classification exception the `except` clause ends
the callback with whatever was already written (the cleared/partial
`predictions`, the untouched `drawn_frame`); only a fully successful loop
reaches the `drawn_frame` assignment. -/
def print_result {α : Type} (classify : α → Option String)
    (render : List String → Frame) (observations : List α) (s : SState) : SState :=
  match classifyLoop classify observations [] with
  | (preds, true) => { predictions := preds, drawn_frame := render preds }
  | (preds, false) => { s with predictions := preds }

/-! ## Capture-loop throttle (src/demo.py lines 53–72)

```python
timestamp = 0
show_timestamp = 0
INTERVAL = 10
fps = math.floor(1000 / cam.get(cv2.CAP_PROP_FPS))
...
while cam.isOpened():
    ...
    timestamp += fps
    if timestamp - show_timestamp > INTERVAL:
        landmarker.detect_async(mp_img, timestamp)
        show_timestamp = timestamp
```

One loop iteration advances the synthetic timestamp and submits exactly
when the gap since the last submission exceeds the configured minimum. -/

/-- Constant from src/demo.py line 55. -/
def INTERVAL : Nat := 10

/-- The synthetic per-frame timestamp step `math.floor(1000 / camera_fps)`
(src/demo.py line 56), as a function of the camera-reported frame rate. -/
def fps (camera_fps : ℚ) : Int := ⌊(1000 : ℚ) / camera_fps⌋

/-- Throttle bookkeeping carried across capture-loop iterations, plus a
count of `detect_async` submissions. -/
structure ThrottleState where
  timestamp : Nat
  show_timestamp : Nat
  submits : Nat
deriving DecidableEq, Repr

/-- One capture-loop iteration of the throttle: advance the timestamp by
`step` and submit when the gap exceeds `gap`. -/
def throttleStep (gap : Nat) (s : ThrottleState) (step : Nat) : ThrottleState :=
  let t := s.timestamp + step
  if gap < t - s.show_timestamp then ⟨t, t, s.submits + 1⟩
  else ⟨t, s.show_timestamp, s.submits⟩

/-- Run the capture loop over a list of timestamp increments, starting from
the source's initial `timestamp = 0`, `show_timestamp = 0`. -/
def throttleRun (gap : Nat) (steps : List Nat) : ThrottleState :=
  steps.foldl (throttleStep gap) ⟨0, 0, 0⟩

/-! ## Dataset split utility (src/Model/test.py)

```python
letters = list("ABCDEFGHIKLMNOPQRSTUVWXY#")
df = pd.read_csv(input_csv)
expected_cols = ["letter", "hand"] + [f"{coord}{i}" for i in range(21) for coord in ["x", "y", "z"]]
if list(df.columns) != expected_cols:
    raise ValueError(...)
for letter in letters:
    letter_data = df[df["letter"] == letter]
    train_sample = letter_data.sample(n=int(len(letter_data) * 0.8), random_state=42)
    remaining = letter_data.drop(train_sample.index)
    test_sample = remaining.sample(n=len(remaining), random_state=42)
    train_data.append(train_sample)
    test_data.append(test_sample)
train_df = pd.concat(train_data).sample(frac=1, random_state=42)
test_df = pd.concat(test_data).sample(frac=1, random_state=42)
train_df.to_csv(train_csv); test_df.to_csv(test_csv)
```

`pandas.sample(n=k)` draws `k` distinct rows: we model each `sample` call
as an opaque permutation `shuffle` of its input followed by `take k` (the
complement `remaining` is then `drop k`), quantified over all permutations
since the seeded RNG is opaque.  File I/O is modelled by the returned
value: `Except.error` means the utility aborts before writing anything. -/

instance {ε α : Type} [DecidableEq ε] [DecidableEq α] : DecidableEq (Except ε α) :=
  fun a b =>
    match a, b with
    | .ok x, .ok y =>
      if h : x = y then isTrue (by rw [h]) else isFalse (fun c => h (Except.ok.inj c))
    | .ok _, .error _ => isFalse (fun c => Except.noConfusion c)
    | .error _, .ok _ => isFalse (fun c => Except.noConfusion c)
    | .error e, .error e' =>
      if h : e = e' then isTrue (by rw [h]) else isFalse (fun c => h (Except.error.inj c))

/-- One CSV row: its letter value and the remaining cells. -/
structure Row where
  letter : String
  fields : List ℚ
deriving DecidableEq, Repr

/-- A tabular file: column names and rows. -/
structure Table where
  columns : List String
  rows : List Row
deriving DecidableEq, Repr

/-- `letters = list("ABCDEFGHIKLMNOPQRSTUVWXY#")` (src/Model/test.py line 9):
the 25 letter values the split iterates over (no J, no Z). -/
def letters : List String := "ABCDEFGHIKLMNOPQRSTUVWXY#".toList.map (fun c => toString c)

/-- `expected_cols` (src/Model/test.py line 17): `letter`, `hand`, then
`x0, y0, z0, x1, y1, z1, …, x20, y20, z20`. -/
def expected_cols : List String :=
  ["letter", "hand"] ++
    (List.range 21).flatMap (fun i => ["x", "y", "z"].map (fun coord => coord ++ toString i))

/-- `int(len(letter_data) * 0.8)`: the training sample size.  For every row
count `n` the double `0.8` is close enough to `4/5` that the float product
truncates to `n * 4 / 5` (the product of `n` and the double nearest `0.8`
rounds to `4n/5` exactly when `5 ∣ n`, and the true value is at distance
at least `1/5` from every integer otherwise). -/
def trainCount (n : Nat) : Nat := n * 4 / 5

/-- The per-letter body of the split loop: filter the letter's rows, sample
`trainCount` of them for training (`shuffle` then `take`), and shuffle the
remaining rows for testing. -/
def splitLetter (shuffle : List Row → List Row) (rows : List Row) (l : String) :
    List Row × List Row :=
  let letterData := rows.filter (fun r => r.letter == l)
  let k := trainCount letterData.length
  let shuffled := shuffle letterData
  (shuffled.take k, shuffle (shuffled.drop k))

/-- The whole utility: schema validation (abort before any output on a
mismatch), per-letter 80/20 split, concatenation in letter order, one final
shuffle of each output, and the two written tables with the same schema. -/
def splitDataset (shuffle : List Row → List Row) (df : Table) :
    Except String (Table × Table) :=
  if df.columns = expected_cols then
    let parts := letters.map (splitLetter shuffle df.rows)
    let train_df := shuffle (parts.map Prod.fst).flatten
    let test_df := shuffle (parts.map Prod.snd).flatten
    Except.ok (⟨expected_cols, train_df⟩, ⟨expected_cols, test_df⟩)
  else Except.error "schema mismatch"

/-! # Theorems -/

/-- Claim C2 counterexample: for an observation with 20 landmarks the spec's
contract demands an `EncodingError`, but the source encoding (which performs
no landmark-count check) succeeds and produces a vector of length 61. -/
theorem C2_encode_no_count_check :
    encodeSpec 0 (List.replicate 20 ⟨0, 0, 0⟩) = none ∧
    (encode 0 (List.replicate 20 ⟨0, 0, 0⟩)).length = 61 :=
  ⟨by decide, by decide⟩

/-- Claim C2 (amended): the feature vector always has length `1 + 3·k` for an
observation with `k` landmarks — 64 exactly when `k = 21`; for any other
count the encoding still succeeds (there is no count check and no
`EncodingError`), producing a vector of the wrong length for the scaler. -/
theorem C2_encode_length (h : Int) (lms : List Landmark) :
    (encode h lms).length = 1 + 3 * lms.length := by
  induction lms with
  | nil => rfl
  | cons a t ih =>
    have hstep : (encode h (a :: t)).length = (encode h t).length + 3 := by
      simp [encode, List.flatMap_cons]
    rw [hstep, ih]
    simp only [List.length_cons]
    omega

/-- Helper for C4/C5: the per-pixel rule of `add_transparent_image` on valid
`uint8` pixels — foreground wins exactly when its channel sum is positive. -/
theorem compositePixel_rule (b f : Pixel) (hb : b.valid) (hf : f.valid) :
    compositePixel b f = if 0 < pixelSum f then f else b := by
  obtain ⟨hb0, hb1, hb2⟩ := hb
  obtain ⟨hf0, hf1, hf2⟩ := hf
  by_cases hp : 0 < pixelSum f
  · simp [compositePixel, alphaOf, compositeChannel, hp, Nat.mod_eq_of_lt, hf0, hf1, hf2,
      Nat.mod_eq_of_lt hf0, Nat.mod_eq_of_lt hf1, Nat.mod_eq_of_lt hf2]
  · simp [compositePixel, alphaOf, compositeChannel, hp,
      Nat.mod_eq_of_lt hb0, Nat.mod_eq_of_lt hb1, Nat.mod_eq_of_lt hb2]

/-- The pixel of a frame at row `i`, column `j` (zero pixel out of range). -/
def pixelAt (f : Frame) (i j : Nat) : Pixel := (f.getD i []).getD j ⟨0, 0, 0⟩

/-- Helper: same-shape frames have the same length. -/
theorem sameShape_length {a b : Frame} (h : a.sameShape b) : a.length = b.length := by
  have := congrArg List.length h
  simpa using this

/-- Helper: same-shape frames have rows of equal length at every index. -/
theorem sameShape_row_length {a b : Frame} (h : a.sameShape b) (i : Nat)
    (hia : i < a.length) (hib : i < b.length) : a[i].length = b[i].length := by
  have h1 : (List.map List.length a)[i]? = (List.map List.length b)[i]? := by rw [h]
  rw [List.getElem?_map, List.getElem?_map, List.getElem?_eq_getElem hia,
    List.getElem?_eq_getElem hib] at h1
  simpa using h1

/-- Claim C4: per-pixel behaviour of the compositor — at every in-range
position, the output pixel is the overlay (foreground) pixel exactly when
the overlay pixel's channel sum is positive, and the background pixel
otherwise.  The embedding is a pure function of both inputs: the numpy
expression allocates a fresh array and leaves both arguments unchanged. -/
theorem C4_composite_pixel_rule (bg fg : Frame) (hbg : bg.valid) (hfg : fg.valid)
    (hsh : bg.sameShape fg) (i j : Nat) (hi : i < bg.length)
    (hj : j < (bg.getD i []).length) :
    pixelAt (add_transparent_image bg fg) i j =
      if 0 < pixelSum (pixelAt fg i j) then pixelAt fg i j else pixelAt bg i j := by
  have hif : i < fg.length := (sameShape_length hsh) ▸ hi
  have hrow := sameShape_row_length hsh i hi hif
  rw [List.getD_eq_getElem bg [] hi] at hj
  have hjf : j < fg[i].length := hrow ▸ hj
  have hzi : i < (add_transparent_image bg fg).length := by
    simp only [add_transparent_image, List.length_zipWith]
    omega
  have houter : (add_transparent_image bg fg)[i] = List.zipWith compositePixel bg[i] fg[i] := by
    have h1 : (add_transparent_image bg fg)[i]? =
        some (List.zipWith compositePixel bg[i] fg[i]) := by
      rw [add_transparent_image, List.getElem?_zipWith]
      rw [List.getElem?_eq_getElem hi, List.getElem?_eq_getElem hif]
    rw [List.getElem?_eq_getElem hzi] at h1
    exact Option.some.inj h1
  have hji : j < (List.zipWith compositePixel bg[i] fg[i]).length := by
    rw [List.length_zipWith]; omega
  have hinner : (List.zipWith compositePixel bg[i] fg[i])[j] =
      compositePixel bg[i][j] fg[i][j] := by
    have h1 : (List.zipWith compositePixel bg[i] fg[i])[j]? =
        some (compositePixel bg[i][j] fg[i][j]) := by
      rw [List.getElem?_zipWith, List.getElem?_eq_getElem hj, List.getElem?_eq_getElem hjf]
    rw [List.getElem?_eq_getElem hji] at h1
    exact Option.some.inj h1
  have hpb : pixelAt bg i j = bg[i][j] := by
    rw [pixelAt, List.getD_eq_getElem bg [] hi, List.getD_eq_getElem _ _ hj]
  have hpf : pixelAt fg i j = fg[i][j] := by
    rw [pixelAt, List.getD_eq_getElem fg [] hif, List.getD_eq_getElem _ _ hjf]
  have hpo : pixelAt (add_transparent_image bg fg) i j = compositePixel bg[i][j] fg[i][j] := by
    rw [pixelAt, List.getD_eq_getElem _ [] hzi, houter, List.getD_eq_getElem _ _ hji, hinner]
  rw [hpo, hpb, hpf]
  exact compositePixel_rule _ _ (hbg _ (List.getElem_mem hi) _ (List.getElem_mem hj))
    (hfg _ (List.getElem_mem hif) _ (List.getElem_mem hjf))

/-- Witness for C4 at a concrete pair of 1×2 frames: position (0,0) has a
transparent overlay pixel (background survives), and the hypotheses hold. -/
theorem C4_composite_pixel_rule_witness :
    Frame.valid [[⟨1, 2, 3⟩, ⟨4, 5, 6⟩]] ∧ Frame.valid [[⟨0, 0, 0⟩, ⟨7, 8, 9⟩]] ∧
    Frame.sameShape [[⟨1, 2, 3⟩, ⟨4, 5, 6⟩]] [[⟨0, 0, 0⟩, ⟨7, 8, 9⟩]] ∧
    pixelAt (add_transparent_image [[⟨1, 2, 3⟩, ⟨4, 5, 6⟩]] [[⟨0, 0, 0⟩, ⟨7, 8, 9⟩]]) 0 0 =
      if 0 < pixelSum (pixelAt [[⟨0, 0, 0⟩, ⟨7, 8, 9⟩]] 0 0) then
        pixelAt [[⟨0, 0, 0⟩, ⟨7, 8, 9⟩]] 0 0
      else pixelAt [[⟨1, 2, 3⟩, ⟨4, 5, 6⟩]] 0 0 :=
  ⟨by decide, by decide, by decide,
    C4_composite_pixel_rule [[⟨1, 2, 3⟩, ⟨4, 5, 6⟩]] [[⟨0, 0, 0⟩, ⟨7, 8, 9⟩]]
      (by decide) (by decide) (by decide) 0 0 (by decide) (by decide)⟩

/-- Helper for C5: one row composited against an all-zero row of the same
length is unchanged. -/
theorem compositeRow_allZero (r s : List Pixel) (hval : ∀ p ∈ r, p.valid)
    (hz : ∀ q ∈ s, q = ⟨0, 0, 0⟩) (hlen : r.length = s.length) :
    List.zipWith compositePixel r s = r := by
  induction r generalizing s with
  | nil => rfl
  | cons p pr ihp =>
    cases s with
    | nil => simp at hlen
    | cons q qs =>
      have hq := hz q (by simp)
      obtain ⟨h0, h1, h2⟩ := hval p (by simp)
      simp only [List.zipWith_cons_cons, List.cons.injEq]
      refine ⟨?_, ihp qs (fun x hx => hval x (by simp [hx])) (fun x hx => hz x (by simp [hx]))
        (by simpa using hlen)⟩
      rw [hq]
      simp [compositePixel, alphaOf, pixelSum, compositeChannel,
        Nat.mod_eq_of_lt h0, Nat.mod_eq_of_lt h1, Nat.mod_eq_of_lt h2]

/-- Helper for C5: compositing any valid background with any all-zero
overlay of the same shape returns the background unchanged. -/
theorem composite_allZero (bg ov : Frame) (hbg : bg.valid) (hov : allTransparent ov)
    (hsh : bg.sameShape ov) : add_transparent_image bg ov = bg := by
  induction bg generalizing ov with
  | nil => rfl
  | cons r rs ih =>
    cases ov with
    | nil => simp [Frame.sameShape] at hsh
    | cons s ss =>
      have hsh' : r.length = s.length ∧ List.map List.length rs = List.map List.length ss := by
        simpa [Frame.sameShape] using hsh
      simp only [add_transparent_image, List.zipWith_cons_cons, List.cons.injEq]
      refine ⟨compositeRow_allZero r s (hbg r (by simp)) (hov s (by simp)) hsh'.1, ?_⟩
      exact ih ss (fun row hr => hbg row (by simp [hr]))
        (fun row hr => hov row (by simp [hr])) hsh'.2

/-- Helper for C5: the renderer's freshly allocated canvas is all-zero. -/
theorem zerosLike_allTransparent (f : Frame) : allTransparent (zerosLike f) := by
  intro row hr p hp
  simp only [zerosLike, List.mem_map] at hr
  obtain ⟨r0, _, rfl⟩ := hr
  simp only [List.mem_map] at hp
  obtain ⟨p0, _, rfl⟩ := hp
  rfl

/-- Helper for C5: the renderer's canvas has the shape of the source frame. -/
theorem zerosLike_sameShape (f : Frame) : f.sameShape (zerosLike f) := by
  simp [Frame.sameShape, zerosLike, List.map_map, Function.comp]

/-- Helper for C5: with zero observations the per-hand loop never runs, so
`draw_landmarks_on_image` returns its freshly allocated all-zero canvas. -/
theorem draw_landmarks_on_image_nil (prims : DrawPrims) (rgb_image : Frame)
    (predictions : List String) :
    draw_landmarks_on_image prims rgb_image [] predictions = zerosLike rgb_image := rfl

/-- Claim C5: identity law and round-trip — compositing any same-shape
all-zero overlay over a valid background frame returns the background
exactly, and in particular rendering zero observations and compositing the
resulting overlay returns the original background frame unchanged. -/
theorem C5_composite_identity (bg ov : Frame) (prims : DrawPrims) (preds : List String)
    (hbg : bg.valid) (hov : allTransparent ov) (hsh : bg.sameShape ov) :
    add_transparent_image bg ov = bg ∧
    add_transparent_image bg (draw_landmarks_on_image prims bg [] preds) = bg := by
  refine ⟨composite_allZero bg ov hbg hov hsh, ?_⟩
  rw [draw_landmarks_on_image_nil]
  exact composite_allZero bg (zerosLike bg) hbg (zerosLike_allTransparent bg)
    (zerosLike_sameShape bg)

/-- Witness for C5 at a concrete 1×2 background, the zero overlay, and
trivial drawing primitives. -/
theorem C5_composite_identity_witness :
    Frame.valid [[⟨10, 20, 30⟩, ⟨200, 0, 255⟩]] ∧
    allTransparent [[⟨0, 0, 0⟩, ⟨0, 0, 0⟩]] ∧
    Frame.sameShape [[⟨10, 20, 30⟩, ⟨200, 0, 255⟩]] [[⟨0, 0, 0⟩, ⟨0, 0, 0⟩]] ∧
    (add_transparent_image [[⟨10, 20, 30⟩, ⟨200, 0, 255⟩]] [[⟨0, 0, 0⟩, ⟨0, 0, 0⟩]] =
        [[⟨10, 20, 30⟩, ⟨200, 0, 255⟩]] ∧
      add_transparent_image [[⟨10, 20, 30⟩, ⟨200, 0, 255⟩]]
          (draw_landmarks_on_image ⟨fun f _ => f, fun f _ _ => f⟩
            [[⟨10, 20, 30⟩, ⟨200, 0, 255⟩]] [] []) =
        [[⟨10, 20, 30⟩, ⟨200, 0, 255⟩]]) :=
  ⟨by decide, by decide, by decide,
    C5_composite_identity [[⟨10, 20, 30⟩, ⟨200, 0, 255⟩]] [[⟨0, 0, 0⟩, ⟨0, 0, 0⟩]]
      ⟨fun f _ => f, fun f _ _ => f⟩ [] (by decide) (by decide) (by decide)⟩

/-- Helper for C6: invariant of the throttle loop — `show_timestamp` never
exceeds `timestamp`, each of the `submits` submissions accounts for at least
`gap + 1` time units of `show_timestamp`, and `timestamp` advances by the
sum of the increments. -/
theorem throttle_foldl_invariant (gap : Nat) (steps : List Nat) (s : ThrottleState)
    (h1 : s.show_timestamp ≤ s.timestamp)
    (h2 : s.submits * (gap + 1) ≤ s.show_timestamp) :
    (steps.foldl (throttleStep gap) s).show_timestamp ≤
        (steps.foldl (throttleStep gap) s).timestamp ∧
    (steps.foldl (throttleStep gap) s).submits * (gap + 1) ≤
        (steps.foldl (throttleStep gap) s).show_timestamp ∧
    (steps.foldl (throttleStep gap) s).timestamp = s.timestamp + steps.sum := by
  induction steps generalizing s with
  | nil => exact ⟨h1, h2, by simp⟩
  | cons d t ih =>
    simp only [List.foldl_cons, List.sum_cons, throttleStep]
    by_cases hc : gap < s.timestamp + d - s.show_timestamp
    · rw [if_pos hc]
      have hkey : s.submits * (gap + 1) + (gap + 1) ≤ s.timestamp + d := by
        have h2' := h2
        generalize s.submits * (gap + 1) = P at h2' ⊢
        omega
      have hrec := ih ⟨s.timestamp + d, s.timestamp + d, s.submits + 1⟩ (le_refl _)
        (by simpa [Nat.succ_mul] using hkey)
      exact ⟨hrec.1, hrec.2.1, by rw [hrec.2.2]; dsimp only; omega⟩
    · rw [if_neg hc]
      have hrec := ih ⟨s.timestamp + d, s.show_timestamp, s.submits⟩ (by dsimp only; omega) h2
      exact ⟨hrec.1, hrec.2.1, by rw [hrec.2.2]; dsimp only; omega⟩

/-- Claim C6: over any run of the capture loop whose timestamp increments
sum to at most `N` time units, with a positive minimum gap `gap`,
`detect_async` is submitted at most `N / gap + 1` times (the code submits
only when the elapsed gap strictly exceeds `gap`, so successive submissions
are at least `gap + 1` apart). -/
theorem C6_submit_bound (gap N : Nat) (steps : List Nat) (hgap : 0 < gap)
    (hsum : steps.sum ≤ N) :
    (throttleRun gap steps).submits ≤ N / gap + 1 := by
  have hinv := throttle_foldl_invariant gap steps ⟨0, 0, 0⟩ (le_refl 0) (by simp)
  have hN : (throttleRun gap steps).submits * (gap + 1) ≤ N := by
    calc (throttleRun gap steps).submits * (gap + 1)
        ≤ (throttleRun gap steps).show_timestamp := hinv.2.1
      _ ≤ (throttleRun gap steps).timestamp := hinv.1
      _ = steps.sum := by
          have := hinv.2.2
          simpa [throttleRun] using this
      _ ≤ N := hsum
  have hdiv : (throttleRun gap steps).submits ≤ N / (gap + 1) :=
    (Nat.le_div_iff_mul_le (Nat.succ_pos gap)).2 hN
  calc (throttleRun gap steps).submits
      ≤ N / (gap + 1) := hdiv
    _ ≤ N / gap := Nat.div_le_div_left (Nat.le_succ gap) hgap
    _ ≤ N / gap + 1 := Nat.le_succ _

/-- Witness for C6: three increments of 11 units over `N = 33` with
`gap = 10`; the theorem bounds the submission count by `33/10 + 1 = 4`. -/
theorem C6_submit_bound_witness :
    0 < 10 ∧ List.sum [11, 11, 11] ≤ 33 ∧
    (throttleRun 10 [11, 11, 11]).submits ≤ 33 / 10 + 1 :=
  ⟨by decide, by decide, C6_submit_bound 10 33 [11, 11, 11] (by decide) (by decide)⟩

/-- Helper for C10: when every timestamp increment strictly exceeds the
gap, every iteration submits. -/
theorem throttle_all_submit (gap d : Nat) (hd : gap < d) (n : Nat) (s : ThrottleState)
    (hs : s.show_timestamp = s.timestamp) :
    ((List.replicate n d).foldl (throttleStep gap) s).submits = s.submits + n := by
  induction n generalizing s with
  | zero => simp
  | succ m ih =>
    simp only [List.replicate_succ, List.foldl_cons, throttleStep]
    rw [if_pos (by omega)]
    rw [ih ⟨s.timestamp + d, s.timestamp + d, s.submits + 1⟩ rfl]
    dsimp only
    omega

/-- Claim C10: with the source constants `INTERVAL = 10` and the per-frame
step `fps = floor(1000 / camera_fps)`, any camera frame rate in `(0, 90]`
gives a step of at least 11 > INTERVAL, so the capture loop submits every
single captured frame — the throttle never skips a frame. -/
theorem C10_every_frame_submitted (camera_fps : ℚ) (n : Nat)
    (hpos : 0 < camera_fps) (h90 : camera_fps ≤ 90) :
    (throttleRun INTERVAL (List.replicate n (fps camera_fps).toNat)).submits = n := by
  have h11 : (11 : Int) ≤ fps camera_fps := by
    rw [fps, Int.le_floor]
    rw [le_div_iff₀ hpos]
    push_cast
    nlinarith
  have hd : INTERVAL < (fps camera_fps).toNat := by
    rw [INTERVAL]
    omega
  simpa [throttleRun] using
    throttle_all_submit INTERVAL (fps camera_fps).toNat hd n ⟨0, 0, 0⟩ rfl

/-- Witness for C10: a 30 fps camera (step `floor(1000/30) = 33 > 10`) over
two frames submits both frames. -/
theorem C10_every_frame_submitted_witness :
    (0 : ℚ) < 30 ∧ (30 : ℚ) ≤ 90 ∧
    (throttleRun INTERVAL (List.replicate 2 (fps 30).toNat)).submits = 2 :=
  ⟨by norm_num, by norm_num, C10_every_frame_submitted 30 2 (by norm_num) (by norm_num)⟩

/-- Claim C8: the split utility validates the schema first — on any column
mismatch it aborts with an error before producing any output table, and on a
match it produces both outputs, each carrying the expected schema. -/
theorem C8_schema_gate (shuffle : List Row → List Row) (df : Table) :
    (df.columns ≠ expected_cols → splitDataset shuffle df = Except.error "schema mismatch") ∧
    (df.columns = expected_cols →
      ∃ tr te, splitDataset shuffle df = Except.ok (tr, te) ∧
        tr.columns = expected_cols ∧ te.columns = expected_cols) := by
  constructor
  · intro h
    simp [splitDataset, h]
  · intro h
    unfold splitDataset
    rw [if_pos h]
    exact ⟨_, _, rfl, rfl, rfl⟩

/-- Witness for C8: a one-column table is rejected with the error and no
outputs; an empty table with the expected columns yields both outputs. -/
theorem C8_schema_gate_witness :
    splitDataset id ⟨["letter"], []⟩ = Except.error "schema mismatch" ∧
    (∃ tr te, splitDataset id ⟨expected_cols, []⟩ = Except.ok (tr, te) ∧
      tr.columns = expected_cols ∧ te.columns = expected_cols) :=
  ⟨(C8_schema_gate id ⟨["letter"], []⟩).1 (by decide),
    (C8_schema_gate id ⟨expected_cols, []⟩).2 rfl⟩

/-- Claim C9 counterexample: two hands sharing the same topmost-leftmost
landmark (equal minimum x and minimum y) receive different label anchors,
because the code anchors on the MAXIMUM x (src/utils.py line 88), so the
anchor is not the spec-claimed function of the topmost-leftmost landmark;
at the second hand the code anchor also differs from the spec anchor. -/
theorem C9_anchor_counterexample :
    minX [⟨1/10, 1/2, 0⟩, ⟨3/10, 1/5, 0⟩] = minX [⟨1/10, 1/2, 0⟩, ⟨9/10, 1/5, 0⟩] ∧
    minY [⟨1/10, 1/2, 0⟩, ⟨3/10, 1/5, 0⟩] = minY [⟨1/10, 1/2, 0⟩, ⟨9/10, 1/5, 0⟩] ∧
    labelAnchor 100 100 [⟨1/10, 1/2, 0⟩, ⟨3/10, 1/5, 0⟩] ≠
      labelAnchor 100 100 [⟨1/10, 1/2, 0⟩, ⟨9/10, 1/5, 0⟩] ∧
    labelAnchor 100 100 [⟨1/10, 1/2, 0⟩, ⟨9/10, 1/5, 0⟩] ≠
      textAnchorSpec 100 100 [⟨1/10, 1/2, 0⟩, ⟨9/10, 1/5, 0⟩] := by
  refine ⟨by norm_num [minX], by norm_num [minY], ?_, ?_⟩ <;>
    norm_num [labelAnchor, textAnchorSpec, putTextOrg, flipColIdx, text_x, text_y,
      pyInt, maxX, minX, minY, MARGIN, Prod.ext_iff]

/-- Claim C9 (amended): the label anchor the renderer actually uses is
based on the maximum landmark x and minimum landmark y — `text_x =
int(max_x·w) + MARGIN`, `text_y = int(min_y·h) - MARGIN` — and the text is
placed at `(w - text_x, text_y)` on a canvas flipped before and after the
call, which lands it at canvas column `text_x - 1`; under the display's own
horizontal mirror (demo.py line 77) the label therefore sits a fixed
`MARGIN - 1` columns left of the mirrored rightmost landmark — the visually
topmost-leftmost point of the mirrored skeleton — keeping text and skeleton
aligned. -/
theorem C9_label_anchor (w h : Nat) (hand : List Landmark) :
    labelAnchor w h hand = (text_x w hand - 1, text_y h hand) ∧
    text_x w hand = pyInt (maxX hand * w) + MARGIN ∧
    flipColIdx w (labelAnchor w h hand).1 =
      flipColIdx w (pyInt (maxX hand * w)) - (MARGIN - 1) := by
  refine ⟨?_, rfl, ?_⟩
  · simp only [labelAnchor, putTextOrg, flipColIdx, Prod.mk.injEq]
    exact ⟨by ring, trivial⟩
  · simp only [labelAnchor, putTextOrg, flipColIdx, text_x, MARGIN]
    ring


/-- Helper for C1: folding over an appended step list composes the runs. -/
theorem runSteps_append (gs hs : List (SState → SState)) (s : SState) :
    runSteps (gs ++ hs) s = runSteps hs (runSteps gs s) := by
  simp [runSteps, List.foldl_append]

/-- Helper for C1: if every step of a prefix leaves `drawn_frame` unchanged
and a single final step follows, every observable intermediate state either
still carries the initial `drawn_frame` or is the final state. -/
theorem observed_last_write (gs : List (SState → SState)) (glast : SState → SState)
    (hpres : ∀ g ∈ gs, ∀ s : SState, (g s).drawn_frame = s.drawn_frame) (s0 : SState) :
    ∀ s ∈ observed (gs ++ [glast]) s0,
      s.drawn_frame = s0.drawn_frame ∨ s = glast (runSteps gs s0) := by
  induction gs generalizing s0 with
  | nil =>
    intro s hs
    simp only [List.nil_append, observed, List.mem_cons, List.not_mem_nil, or_false] at hs
    rcases hs with rfl | rfl
    · exact Or.inl rfl
    · exact Or.inr (by simp [runSteps])
  | cons g t ih =>
    intro s hs
    simp only [List.cons_append, observed, List.mem_cons] at hs
    rcases hs with rfl | hs
    · exact Or.inl rfl
    · rcases ih (fun g' hg' => hpres g' (by simp [hg'])) (g s0) s hs with hl | hr
      · exact Or.inl (hl.trans (hpres g (by simp) s0))
      · exact Or.inr (by rw [hr]; simp [runSteps])

/-- Claim C1 counterexample: one callback run for a single observation,
interleaved with a reader, starting from a published state with prediction
list `["A"]` and overlay image `img1`.  After the callback's first write
(`predictions = []`) a reader observes the cleared prediction list paired
with the OLD overlay image — a state that is neither the prior complete
state `(["A"], img1)` nor the next complete state `(["B"], img2)`, so the
shared state is not replaced as a single atomic whole. -/
theorem C1_overlay_not_atomic :
    ¬ (∀ s ∈ observed (callbackSteps (fun _ => "B") (fun _ => [[⟨2, 2, 2⟩]]) 1)
          ⟨["A"], [[⟨1, 1, 1⟩]]⟩,
        s = ⟨["A"], [[⟨1, 1, 1⟩]]⟩ ∨
        s = runSteps (callbackSteps (fun _ => "B") (fun _ => [[⟨2, 2, 2⟩]]) 1)
          ⟨["A"], [[⟨1, 1, 1⟩]]⟩) := by
  decide

/-- Claim C1 (amended): only the final `drawn_frame` assignment is a single
whole-reference write; the prediction list is cleared and grown across
separate writes.  Hence any state a concurrent reader observes carries
either the previous or the next complete overlay image (the capture loop,
demo.py lines 74–75, reads only `drawn_frame` and thus never sees a partial
image), even though the pair (predictions, drawn_frame) can be observed as
a mix of old and new. -/
theorem C1_drawn_frame_single_write (classify : Nat → String)
    (render : List String → Frame) (n : Nat) (s0 : SState) :
    ∀ s ∈ observed (callbackSteps classify render n) s0,
      s.drawn_frame = s0.drawn_frame ∨
      s.drawn_frame = (runSteps (callbackSteps classify render n) s0).drawn_frame := by
  intro s hs
  have hshape : callbackSteps classify render n =
      ((fun s => { s with predictions := [] }) ::
        (List.range n).map (fun i s => { s with predictions := s.predictions ++ [classify i] }))
        ++ [fun s => { s with drawn_frame := render s.predictions }] := by
    simp [callbackSteps]
  have hpres : ∀ g ∈ (fun s : SState => { s with predictions := ([] : List String) }) ::
      (List.range n).map
        (fun i (s : SState) => { s with predictions := s.predictions ++ [classify i] }),
      ∀ s : SState, (g s).drawn_frame = s.drawn_frame := by
    intro g hg t
    rcases List.mem_cons.1 hg with rfl | hg'
    · rfl
    · obtain ⟨i, _, rfl⟩ := List.mem_map.1 hg'
      rfl
  rw [hshape] at hs
  rcases observed_last_write _ _ hpres s0 s hs with h | h
  · exact Or.inl h
  · right
    rw [h, hshape, runSteps_append]
    simp [runSteps]

/-- Witness for C1's amended theorem: the intermediate state reached after
the clearing write in the concrete interleaving of `C1_overlay_not_atomic`
still carries the old overlay image. -/
theorem C1_drawn_frame_single_write_witness :
    (⟨[], [[⟨1, 1, 1⟩]]⟩ : SState) ∈
      observed (callbackSteps (fun _ => "B") (fun _ => [[⟨2, 2, 2⟩]]) 1)
        ⟨["A"], [[⟨1, 1, 1⟩]]⟩ ∧
    ((⟨[], [[⟨1, 1, 1⟩]]⟩ : SState).drawn_frame =
        (⟨["A"], [[⟨1, 1, 1⟩]]⟩ : SState).drawn_frame ∨
      (⟨[], [[⟨1, 1, 1⟩]]⟩ : SState).drawn_frame =
        (runSteps (callbackSteps (fun _ => "B") (fun _ => [[⟨2, 2, 2⟩]]) 1)
          ⟨["A"], [[⟨1, 1, 1⟩]]⟩).drawn_frame) :=
  ⟨by decide,
    C1_drawn_frame_single_write (fun _ => "B") (fun _ => [[⟨2, 2, 2⟩]]) 1
      ⟨["A"], [[⟨1, 1, 1⟩]]⟩ ⟨[], [[⟨1, 1, 1⟩]]⟩ (by decide)⟩

/-- Helper for C3: the classification loop on a list whose first failure is
at `bad` ends the loop with the labels of the prefix before `bad` and the
failure flag set — everything after `bad` is never examined. -/
theorem classifyLoop_append_fail {α : Type} (classify : α → Option String)
    (pre : List α) (bad : α) (post : List α) (acc : List String)
    (hpre : ∀ a ∈ pre, (classify a).isSome) (hbad : classify bad = none) :
    classifyLoop classify (pre ++ bad :: post) acc = (acc ++ pre.filterMap classify, false) := by
  induction pre generalizing acc with
  | nil => simp [classifyLoop, hbad]
  | cons a t ih =>
    obtain ⟨l, hl⟩ := Option.isSome_iff_exists.1 (hpre a (by simp))
    simp only [List.cons_append, classifyLoop, hl, List.append_eq]
    rw [ih (acc ++ [l]) (fun x hx => hpre x (by simp [hx]))]
    simp [List.filterMap_cons, hl]

/-- Claim C3 counterexample: a result with two observations where the first
fails to classify and the second would classify to "B".  The source's
single try/except aborts the WHOLE callback: the output state is
`([], img1)` — the second observation contributed no prediction (its label
"B" is nowhere), nothing was re-rendered, and the previously published
prediction list `["A"]` was destroyed (cleared), contradicting both the
per-observation skip and the claim that the published prediction list
remains unchanged. -/
theorem C3_whole_callback_aborts :
    print_result (fun i : Nat => if i = 0 then none else some "B")
        (fun _ => [[⟨2, 2, 2⟩]]) [0, 1] ⟨["A"], [[⟨1, 1, 1⟩]]⟩ =
      ⟨[], [[⟨1, 1, 1⟩]]⟩ ∧
    "B" ∉ (print_result (fun i : Nat => if i = 0 then none else some "B")
        (fun _ => [[⟨2, 2, 2⟩]]) [0, 1] ⟨["A"], [[⟨1, 1, 1⟩]]⟩).predictions ∧
    (print_result (fun i : Nat => if i = 0 then none else some "B")
        (fun _ => [[⟨2, 2, 2⟩]]) [0, 1] ⟨["A"], [[⟨1, 1, 1⟩]]⟩).predictions ≠ ["A"] :=
  ⟨by decide, by decide, by decide⟩

/-- Claim C3 (amended): when classification of some observation fails, the
try/except aborts the whole callback at that point: the overlay image keeps
its previous value (no re-render), the observations after the failing one
contribute nothing, and the shared prediction list is left holding exactly
the labels of the observations before the failure (the previously published
list having been cleared), not its previous value. -/
theorem C3_failure_aborts_callback {α : Type} (classify : α → Option String)
    (render : List String → Frame) (pre post : List α) (bad : α) (s0 : SState)
    (hpre : ∀ a ∈ pre, (classify a).isSome) (hbad : classify bad = none) :
    (print_result classify render (pre ++ bad :: post) s0).drawn_frame = s0.drawn_frame ∧
    (print_result classify render (pre ++ bad :: post) s0).predictions =
      pre.filterMap classify := by
  unfold print_result
  rw [classifyLoop_append_fail classify pre bad post [] hpre hbad]
  exact ⟨rfl, by simp⟩

/-- Witness for C3's amended theorem: prefix `[0]` classifies to "L", the
observation `1` fails, the observation `2` is never reached. -/
theorem C3_failure_aborts_callback_witness :
    (∀ a ∈ [0], ((fun i : Nat => if i = 1 then none else some "L") a).isSome) ∧
    (fun i : Nat => if i = 1 then none else some "L") 1 = none ∧
    ((print_result (fun i : Nat => if i = 1 then none else some "L")
        (fun _ => [[⟨2, 2, 2⟩]]) ([0] ++ 1 :: [2]) ⟨["A"], [[⟨1, 1, 1⟩]]⟩).drawn_frame =
        (⟨["A"], [[⟨1, 1, 1⟩]]⟩ : SState).drawn_frame ∧
      (print_result (fun i : Nat => if i = 1 then none else some "L")
        (fun _ => [[⟨2, 2, 2⟩]]) ([0] ++ 1 :: [2]) ⟨["A"], [[⟨1, 1, 1⟩]]⟩).predictions =
        List.filterMap (fun i : Nat => if i = 1 then none else some "L") [0]) :=
  ⟨by decide, by decide,
    C3_failure_aborts_callback (fun i : Nat => if i = 1 then none else some "L")
      (fun _ => [[⟨2, 2, 2⟩]]) [0] [2] 1 ⟨["A"], [[⟨1, 1, 1⟩]]⟩ (by decide) (by decide)⟩


/-- Helper for C7: the fixed letter list contains no duplicates. -/
theorem letters_nodup : letters.Nodup := by decide

/-- Helper for C7: the training sample size never exceeds the group size. -/
theorem trainCount_le (n : Nat) : trainCount n ≤ n := by
  have h45 : n * 4 ≤ n * 5 := Nat.mul_le_mul_left n (by decide)
  calc n * 4 / 5 ≤ n * 5 / 5 := Nat.div_le_div_right h45
    _ = n := Nat.mul_div_cancel n (by decide)

/-- Helper for C7: the first split component, unfolded. -/
theorem splitLetter_fst_eq (shuffle : List Row → List Row) (rows : List Row) (l : String) :
    (splitLetter shuffle rows l).1 =
      (shuffle (rows.filter (fun r => r.letter == l))).take
        (trainCount (rows.filter (fun r => r.letter == l)).length) := rfl

/-- Helper for C7: the second split component, unfolded. -/
theorem splitLetter_snd_eq (shuffle : List Row → List Row) (rows : List Row) (l : String) :
    (splitLetter shuffle rows l).2 =
      shuffle ((shuffle (rows.filter (fun r => r.letter == l))).drop
        (trainCount (rows.filter (fun r => r.letter == l)).length)) := rfl

/-- Helper for C7: every row sampled for a letter's training part carries
that letter. -/
theorem splitLetter_fst_letter (shuffle : List Row → List Row)
    (hsh : ∀ xs, (shuffle xs).Perm xs) (rows : List Row) (l : String) :
    ∀ r ∈ (splitLetter shuffle rows l).1, r.letter = l := by
  intro r hr
  rw [splitLetter_fst_eq] at hr
  have hr1 := List.take_subset _ _ hr
  have hr2 := (hsh _).mem_iff.1 hr1
  exact eq_of_beq (List.mem_filter.1 hr2).2

/-- Helper for C7: every row left for a letter's test part carries that
letter. -/
theorem splitLetter_snd_letter (shuffle : List Row → List Row)
    (hsh : ∀ xs, (shuffle xs).Perm xs) (rows : List Row) (l : String) :
    ∀ r ∈ (splitLetter shuffle rows l).2, r.letter = l := by
  intro r hr
  rw [splitLetter_snd_eq] at hr
  have hr1 := (hsh _).mem_iff.1 hr
  have hr2 := List.drop_subset _ _ hr1
  have hr3 := (hsh _).mem_iff.1 hr2
  exact eq_of_beq (List.mem_filter.1 hr3).2

/-- Helper for C7: training part and test part together are a permutation
of the letter's rows. -/
theorem splitLetter_append_perm (shuffle : List Row → List Row)
    (hsh : ∀ xs, (shuffle xs).Perm xs) (rows : List Row) (l : String) :
    ((splitLetter shuffle rows l).1 ++ (splitLetter shuffle rows l).2).Perm
      (rows.filter (fun r => r.letter == l)) := by
  rw [splitLetter_fst_eq, splitLetter_snd_eq]
  refine (List.Perm.append_left _ (hsh _)).trans ?_
  rw [List.take_append_drop]
  exact hsh _

/-- Helper for C7: the training part has exactly `trainCount` rows. -/
theorem splitLetter_fst_length (shuffle : List Row → List Row)
    (hsh : ∀ xs, (shuffle xs).Perm xs) (rows : List Row) (l : String) :
    (splitLetter shuffle rows l).1.length =
      trainCount (rows.filter (fun r => r.letter == l)).length := by
  rw [splitLetter_fst_eq, List.length_take, (hsh _).length_eq]
  exact Nat.min_eq_left (trainCount_le _)

/-- Helper for C7: the test part has exactly the remaining rows. -/
theorem splitLetter_snd_length (shuffle : List Row → List Row)
    (hsh : ∀ xs, (shuffle xs).Perm xs) (rows : List Row) (l : String) :
    (splitLetter shuffle rows l).2.length =
      (rows.filter (fun r => r.letter == l)).length -
        trainCount (rows.filter (fun r => r.letter == l)).length := by
  rw [splitLetter_snd_eq, (hsh _).length_eq, List.length_drop, (hsh _).length_eq]

/-- Helper for C7: filtering a concatenation of per-letter parts for a
letter not among them yields nothing. -/
theorem partsFilter_not_mem (part : String → List Row)
    (hp : ∀ m, ∀ r ∈ part m, r.letter = m) (ls : List String) (l : String)
    (hnl : l ∉ ls) :
    (ls.map part).flatten.filter (fun r => r.letter == l) = [] := by
  induction ls with
  | nil => rfl
  | cons m t ih =>
    simp only [List.map_cons, List.flatten_cons, List.filter_append]
    have h1 : (part m).filter (fun r => r.letter == l) = [] := by
      refine List.filter_eq_nil_iff.2 (fun r hr => ?_)
      have hm : m ≠ l := fun h => hnl (by simp [h])
      simp [hp m r hr, hm]
    rw [h1, ih (fun h => hnl (by simp [h])), List.nil_append]

/-- Helper for C7: filtering the concatenation of per-letter parts for one
of the letters yields exactly that letter's part. -/
theorem partsFilter_eq (part : String → List Row)
    (hp : ∀ m, ∀ r ∈ part m, r.letter = m) (ls : List String) (hnd : ls.Nodup)
    (l : String) (hl : l ∈ ls) :
    (ls.map part).flatten.filter (fun r => r.letter == l) = part l := by
  induction ls with
  | nil => cases hl
  | cons m t ih =>
    simp only [List.map_cons, List.flatten_cons, List.filter_append]
    rcases List.mem_cons.1 hl with rfl | hl'
    · have hself : (part l).filter (fun r => r.letter == l) = part l :=
        List.filter_eq_self.2 (fun r hr => by simp [hp l r hr])
      have hrest : (t.map part).flatten.filter (fun r => r.letter == l) = [] :=
        partsFilter_not_mem part hp t l (List.nodup_cons.1 hnd).1
      rw [hself, hrest, List.append_nil]
    · have hm : m ≠ l := fun h => (List.nodup_cons.1 hnd).1 (h ▸ hl')
      have hmfil : (part m).filter (fun r => r.letter == l) = [] := by
        refine List.filter_eq_nil_iff.2 (fun r hr => ?_)
        simp [hp m r hr, hm]
      rw [hmfil, ih (List.nodup_cons.1 hnd).2 hl', List.nil_append]

/-- Claim C7 counterexample: a table with the valid schema and a single row
whose letter is "J" — a value not in the utility's fixed letter list —
produces an empty training output and an empty test output: the input row
appears in NEITHER output table, so the utility does not partition every
input row into exactly one of the two outputs. -/
theorem C7_dropped_letter :
    splitDataset id ⟨expected_cols, [⟨"J", []⟩]⟩ =
      Except.ok (⟨expected_cols, []⟩, ⟨expected_cols, []⟩) := by decide


/-- Claim C7 (amended): for every permutation-valued sampler and every
duplicate-free input table the utility accepts, and for every letter in the
FIXED letter list, the training output holds exactly `int(0.8·n)` of that
letter's `n` rows and the test output the remaining `n - int(0.8·n)` (so
100 rows of "A" give exactly 80 and 20); every input row whose letter is in
the fixed list appears in exactly one of the two outputs; but rows with any
other letter value (such as "J" or "Z") appear in neither output. -/
theorem C7_split_partition (shuffle : List Row → List Row)
    (hsh : ∀ xs, (shuffle xs).Perm xs) (df : Table) (hnd : df.rows.Nodup)
    (tr te : Table) (hok : splitDataset shuffle df = Except.ok (tr, te)) :
    (∀ l ∈ letters,
      (tr.rows.filter (fun r => r.letter == l)).length =
        trainCount (df.rows.filter (fun r => r.letter == l)).length ∧
      (te.rows.filter (fun r => r.letter == l)).length =
        (df.rows.filter (fun r => r.letter == l)).length -
          trainCount (df.rows.filter (fun r => r.letter == l)).length) ∧
    (∀ r ∈ df.rows, r.letter ∈ letters →
      (r ∈ tr.rows ∧ r ∉ te.rows) ∨ (r ∈ te.rows ∧ r ∉ tr.rows)) ∧
    (∀ r ∈ df.rows, r.letter ∉ letters → r ∉ tr.rows ∧ r ∉ te.rows) := by
  by_cases hcols : df.columns = expected_cols
  case neg =>
    unfold splitDataset at hok
    rw [if_neg hcols] at hok
    exact absurd hok (by simp)
  case pos =>
  unfold splitDataset at hok
  rw [if_pos hcols] at hok
  have hpair := Except.ok.inj hok
  rw [Prod.mk.injEq] at hpair
  obtain ⟨htr, hte⟩ := hpair
  have hmap1 : (letters.map (splitLetter shuffle df.rows)).map Prod.fst =
      letters.map (fun m => (splitLetter shuffle df.rows m).1) := by
    simp only [List.map_map]
    rfl
  have hmap2 : (letters.map (splitLetter shuffle df.rows)).map Prod.snd =
      letters.map (fun m => (splitLetter shuffle df.rows m).2) := by
    simp only [List.map_map]
    rfl
  have htrrows : tr.rows =
      shuffle (((letters.map (splitLetter shuffle df.rows)).map Prod.fst).flatten) :=
    (congrArg Table.rows htr).symm
  have hterows : te.rows =
      shuffle (((letters.map (splitLetter shuffle df.rows)).map Prod.snd).flatten) :=
    (congrArg Table.rows hte).symm
  rw [hmap1] at htrrows
  rw [hmap2] at hterows
  have htrp : tr.rows.Perm
      ((letters.map (fun m => (splitLetter shuffle df.rows m).1)).flatten) := by
    rw [htrrows]
    exact hsh _
  have htep : te.rows.Perm
      ((letters.map (fun m => (splitLetter shuffle df.rows m).2)).flatten) := by
    rw [hterows]
    exact hsh _
  have hp1 : ∀ m, ∀ r ∈ (fun m => (splitLetter shuffle df.rows m).1) m, r.letter = m :=
    fun m => splitLetter_fst_letter shuffle hsh df.rows m
  have hp2 : ∀ m, ∀ r ∈ (fun m => (splitLetter shuffle df.rows m).2) m, r.letter = m :=
    fun m => splitLetter_snd_letter shuffle hsh df.rows m
  have hmemtr : ∀ x : Row, x ∈ tr.rows ↔
      ∃ m ∈ letters, x ∈ (splitLetter shuffle df.rows m).1 := by
    intro x
    rw [htrp.mem_iff, List.mem_flatten]
    constructor
    · rintro ⟨part, hpart, hx⟩
      obtain ⟨m, hm, rfl⟩ := List.mem_map.1 hpart
      exact ⟨m, hm, hx⟩
    · rintro ⟨m, hm, hx⟩
      exact ⟨_, List.mem_map.2 ⟨m, hm, rfl⟩, hx⟩
  have hmemte : ∀ x : Row, x ∈ te.rows ↔
      ∃ m ∈ letters, x ∈ (splitLetter shuffle df.rows m).2 := by
    intro x
    rw [htep.mem_iff, List.mem_flatten]
    constructor
    · rintro ⟨part, hpart, hx⟩
      obtain ⟨m, hm, rfl⟩ := List.mem_map.1 hpart
      exact ⟨m, hm, hx⟩
    · rintro ⟨m, hm, hx⟩
      exact ⟨_, List.mem_map.2 ⟨m, hm, rfl⟩, hx⟩
  have htr_letter : ∀ x : Row, x ∈ tr.rows →
      x ∈ (splitLetter shuffle df.rows x.letter).1 ∧ x.letter ∈ letters := by
    intro x hx
    obtain ⟨m, hm, hxm⟩ := (hmemtr x).1 hx
    have hxl := hp1 m x hxm
    exact ⟨by rw [hxl]; exact hxm, by rw [hxl]; exact hm⟩
  have hte_letter : ∀ x : Row, x ∈ te.rows →
      x ∈ (splitLetter shuffle df.rows x.letter).2 ∧ x.letter ∈ letters := by
    intro x hx
    obtain ⟨m, hm, hxm⟩ := (hmemte x).1 hx
    have hxl := hp2 m x hxm
    exact ⟨by rw [hxl]; exact hxm, by rw [hxl]; exact hm⟩
  have hdisj : ∀ x : Row, ¬ (x ∈ (splitLetter shuffle df.rows x.letter).1 ∧
      x ∈ (splitLetter shuffle df.rows x.letter).2) := by
    rintro x ⟨h1, h2⟩
    have hflnd : (df.rows.filter (fun r => r.letter == x.letter)).Nodup := hnd.filter _
    have hshnd : (shuffle (df.rows.filter (fun r => r.letter == x.letter))).Nodup :=
      ((hsh _).nodup_iff).2 hflnd
    rw [splitLetter_fst_eq] at h1
    rw [splitLetter_snd_eq] at h2
    have h2' := (hsh _).mem_iff.1 h2
    have happ : ((shuffle (df.rows.filter (fun r => r.letter == x.letter))).take
          (trainCount (df.rows.filter (fun r => r.letter == x.letter)).length) ++
        (shuffle (df.rows.filter (fun r => r.letter == x.letter))).drop
          (trainCount (df.rows.filter (fun r => r.letter == x.letter)).length)).Nodup := by
      rw [List.take_append_drop]
      exact hshnd
    exact List.disjoint_of_nodup_append happ h1 h2'
  refine ⟨?_, ?_, ?_⟩
  · intro l hl
    constructor
    · rw [(htrp.filter (fun r => r.letter == l)).length_eq,
        partsFilter_eq (fun m => (splitLetter shuffle df.rows m).1) hp1 letters
          letters_nodup l hl]
      exact splitLetter_fst_length shuffle hsh df.rows l
    · rw [(htep.filter (fun r => r.letter == l)).length_eq,
        partsFilter_eq (fun m => (splitLetter shuffle df.rows m).2) hp2 letters
          letters_nodup l hl]
      exact splitLetter_snd_length shuffle hsh df.rows l
  · intro r hr hrl
    have hrf : r ∈ df.rows.filter (fun x => x.letter == r.letter) :=
      List.mem_filter.2 ⟨hr, by simp⟩
    have hrsh : r ∈ shuffle (df.rows.filter (fun x => x.letter == r.letter)) :=
      (hsh _).mem_iff.2 hrf
    have hsplit : r ∈ (splitLetter shuffle df.rows r.letter).1 ∨
        r ∈ (splitLetter shuffle df.rows r.letter).2 := by
      rw [splitLetter_fst_eq, splitLetter_snd_eq]
      have hra : r ∈ (shuffle (df.rows.filter (fun x => x.letter == r.letter))).take
            (trainCount (df.rows.filter (fun x => x.letter == r.letter)).length) ++
          (shuffle (df.rows.filter (fun x => x.letter == r.letter))).drop
            (trainCount (df.rows.filter (fun x => x.letter == r.letter)).length) := by
        rw [List.take_append_drop]
        exact hrsh
      rcases List.mem_append.1 hra with h | h
      · exact Or.inl h
      · exact Or.inr ((hsh _).mem_iff.2 h)
    rcases hsplit with h1 | h2
    · exact Or.inl ⟨(hmemtr r).2 ⟨r.letter, hrl, h1⟩,
        fun hte' => hdisj r ⟨h1, (hte_letter r hte').1⟩⟩
    · exact Or.inr ⟨(hmemte r).2 ⟨r.letter, hrl, h2⟩,
        fun htr' => hdisj r ⟨(htr_letter r htr').1, h2⟩⟩
  · intro r _ hnl
    exact ⟨fun hx => hnl (htr_letter r hx).2, fun hx => hnl (hte_letter r hx).2⟩

/-- Witness for C7's amended theorem: two distinct rows for letter "A"
(so `int(0.8·2) = 1`), split by the identity permutation. -/
theorem C7_split_partition_witness :
    (List.Nodup [(⟨"A", [0]⟩ : Row), ⟨"A", [1]⟩] ∧
      splitDataset id ⟨expected_cols, [⟨"A", [0]⟩, ⟨"A", [1]⟩]⟩ =
        Except.ok (⟨expected_cols, [⟨"A", [0]⟩]⟩, ⟨expected_cols, [⟨"A", [1]⟩]⟩)) ∧
    ((∀ l ∈ letters,
      ((Table.mk expected_cols [⟨"A", [0]⟩]).rows.filter (fun r => r.letter == l)).length =
        trainCount (((Table.mk expected_cols [⟨"A", [0]⟩, ⟨"A", [1]⟩]).rows.filter
          (fun r => r.letter == l)).length) ∧
      ((Table.mk expected_cols [⟨"A", [1]⟩]).rows.filter (fun r => r.letter == l)).length =
        ((Table.mk expected_cols [⟨"A", [0]⟩, ⟨"A", [1]⟩]).rows.filter
          (fun r => r.letter == l)).length -
          trainCount (((Table.mk expected_cols [⟨"A", [0]⟩, ⟨"A", [1]⟩]).rows.filter
            (fun r => r.letter == l)).length)) ∧
    (∀ r ∈ (Table.mk expected_cols [⟨"A", [0]⟩, ⟨"A", [1]⟩]).rows, r.letter ∈ letters →
      (r ∈ (Table.mk expected_cols [(⟨"A", [0]⟩ : Row)]).rows ∧
          r ∉ (Table.mk expected_cols [(⟨"A", [1]⟩ : Row)]).rows) ∨
      (r ∈ (Table.mk expected_cols [(⟨"A", [1]⟩ : Row)]).rows ∧
          r ∉ (Table.mk expected_cols [(⟨"A", [0]⟩ : Row)]).rows)) ∧
    (∀ r ∈ (Table.mk expected_cols [⟨"A", [0]⟩, ⟨"A", [1]⟩]).rows, r.letter ∉ letters →
      r ∉ (Table.mk expected_cols [(⟨"A", [0]⟩ : Row)]).rows ∧
      r ∉ (Table.mk expected_cols [(⟨"A", [1]⟩ : Row)]).rows)) :=
  ⟨⟨by decide, by decide⟩,
    C7_split_partition id (fun xs => List.Perm.refl xs)
      ⟨expected_cols, [⟨"A", [0]⟩, ⟨"A", [1]⟩]⟩ (by decide)
      ⟨expected_cols, [⟨"A", [0]⟩]⟩ ⟨expected_cols, [⟨"A", [1]⟩]⟩ (by decide)⟩


end Signid
